import Mathlib

/-!
Verification development for the flask_todo_app repository (src/app.py).

The application is a todo-list web app with five routes over a single
persisted entity.  We embed the data model and the route handlers as pure
Lean functions over an explicit store state, and prove the behavioural
claims of the specification against that embedding.

Conventions of the embedding:
* The database session/commit machinery is modelled as explicit state
  passing: each handler takes the store and returns (result, new store).
* A handler that crashes (unhandled Python exception) returns
  `Except.error` describing the exception, paired with the store as it is
  at the moment of the crash (nothing was committed before the crash in
  the source, so the store is unchanged there).
* `request.form.get "title"` yields `Option String`: `none` when the form
  field is missing, mirroring Python's `None`.
-/

namespace TodoApp

/-- The persisted entity `Todo` (src/app.py lines 11-14): integer primary
key `id`, nullable string column `title`, boolean column `completed`. -/
structure Todo where
  id : Nat
  title : Option String
  completed : Bool
deriving Repr, DecidableEq

/-- Modelled from the spec: the storage engine (SQLite reached through the
SQLAlchemy session) is not part of src/.  The spec's data model states that
`id` is "integer, unique, auto-assigned" and that "the identifier is never
reused for a later create", so the store carries, besides the table of
todos in insertion order, a monotone counter holding the next id the
engine will assign. -/
structure DB where
  todos : List Todo
  nextId : Nat
deriving Repr, DecidableEq

/-- The empty store of a fresh database; the first assigned id is 1. -/
def initDB : DB := { todos := [], nextId := 1 }

/-- An HTTP response as the handlers produce it: a 200 body, or a 302
redirect to a location. -/
inductive Response where
  | ok (body : String)
  | redirect (location : String)
deriving Repr, DecidableEq

/-- The unhandled Python exceptions the handlers can raise. -/
inductive Err where
  | attributeError
  | unmappedInstanceError
deriving Repr, DecidableEq

/-- Route `GET /` (src/app.py lines 19-21): returns the static greeting.
The handler neither reads nor writes the store; the embedding threads the
store through to make that provable. -/
def say_hello (db : DB) : Response × DB :=
  (Response.ok "Hello, World!", db)

/-- Route `GET /todos` (src/app.py lines 23-26): `Todo.query.all()` reads
every record in storage order and renders them; the rendered collection is
modelled as the list itself. -/
def get_tasks (db : DB) : List Todo × DB :=
  (db.todos, db)

/-- Route `POST /todos/create` (src/app.py lines 28-34): builds
`Todo(title=form.get "title", completed=False)`, adds and commits it, and
redirects to the list view.  The engine assigns the new row the next id. -/
def create (title : Option String) (db : DB) : Response × DB :=
  (Response.redirect "/todos",
   { todos := db.todos ++ [{ id := db.nextId, title := title, completed := false }],
     nextId := db.nextId + 1 })

/-- `todo.completed = not todo.completed` applied to the first record with
the given id, as the session commit persists it; every other record is
left as it is. -/
def toggleFirst (i : Nat) : List Todo → List Todo
  | [] => []
  | t :: ts =>
    if t.id = i then { t with completed := !t.completed } :: ts
    else t :: toggleFirst i ts

/-- Route `GET /todos/update/<id>` (src/app.py lines 36-41):
`Todo.query.filter_by(id=id).first()` yields the first record with that id
or `None`.  On `None`, `todo.completed` raises `AttributeError` before any
session change, so the store is unchanged.  Otherwise the completed flag is
flipped, committed, and the client is redirected to the list view. -/
def update (i : Nat) (db : DB) : Except Err Response × DB :=
  match db.todos.find? (fun t => t.id == i) with
  | none => (Except.error Err.attributeError, db)
  | some _ =>
    (Except.ok (Response.redirect "/todos"), { db with todos := toggleFirst i db.todos })

/-- Removal of the first record with the given id, as
`db.session.delete todo` followed by the commit persists it. -/
def deleteFirst (i : Nat) : List Todo → List Todo
  | [] => []
  | t :: ts => if t.id = i then ts else t :: deleteFirst i ts

/-- Route `GET /todos/delete/<id>` (src/app.py lines 43-48): looks up the
first record with the given id; on `None`, `db.session.delete(None)` raises
`UnmappedInstanceError` before the commit, so the store is unchanged.
Otherwise the record is deleted, committed, and the client redirected. -/
def delete (i : Nat) (db : DB) : Except Err Response × DB :=
  match db.todos.find? (fun t => t.id == i) with
  | none => (Except.error Err.unmappedInstanceError, db)
  | some _ =>
    (Except.ok (Response.redirect "/todos"), { db with todos := deleteFirst i db.todos })

/-- A client request against the mutating part of the interface. -/
inductive Op where
  | create (title : Option String)
  | update (i : Nat)
  | delete (i : Nat)
deriving Repr, DecidableEq

/-- The store after serving one request (a crashed request leaves the
store as the handler left it). -/
def applyOp (db : DB) : Op → DB
  | Op.create t => (create t db).2
  | Op.update i => (update i db).2
  | Op.delete i => (delete i db).2

/-- The store after serving a sequence of requests. -/
def run (db : DB) (ops : List Op) : DB :=
  ops.foldl applyOp db

/-- Stores the application can actually be in: those produced by some
request sequence from the fresh database. -/
def Reachable (db : DB) : Prop :=
  ∃ ops, db = run initDB ops

/-- The store invariant: every present id is below the engine's next id,
and present ids are pairwise distinct. -/
def Inv (db : DB) : Prop :=
  (∀ t ∈ db.todos, t.id < db.nextId) ∧
    db.todos.Pairwise (fun a b => a.id ≠ b.id)

/-! ## Helper lemmas about `toggleFirst` and `deleteFirst` -/

theorem toggleFirst_map_id (i : Nat) (ts : List Todo) :
    (toggleFirst i ts).map (fun t => t.id) = ts.map (fun t => t.id) := by
  induction ts with
  | nil => rfl
  | cons t ts ih =>
    by_cases h : t.id = i <;> simp [toggleFirst, h, ih]

theorem toggleFirst_toggleFirst (i : Nat) (ts : List Todo) :
    toggleFirst i (toggleFirst i ts) = ts := by
  induction ts with
  | nil => rfl
  | cons t ts ih =>
    obtain ⟨tid, ttl, tc⟩ := t
    by_cases h : tid = i
    · simp [toggleFirst, h]
    · simp [toggleFirst, h, ih]

theorem find?_toggleFirst (i : Nat) (ts : List Todo) (t : Todo)
    (h : ts.find? (fun u => u.id == i) = some t) :
    (toggleFirst i ts).find? (fun u => u.id == i)
      = some { t with completed := !t.completed } := by
  induction ts with
  | nil => simp at h
  | cons a ts ih =>
    by_cases ha : a.id = i
    · rw [List.find?_cons_of_pos _ (by simpa using ha)] at h
      cases h
      rw [toggleFirst, if_pos ha]
      exact List.find?_cons_of_pos _ (by simpa using ha)
    · rw [List.find?_cons_of_neg _ (by simpa using ha)] at h
      rw [toggleFirst, if_neg ha]
      rw [List.find?_cons_of_neg _ (by simpa using ha)]
      exact ih h

theorem toggleFirst_forall₂ (i : Nat) (ts : List Todo) :
    List.Forall₂ (fun a b => a.id = b.id ∧ a.title = b.title ∧ (a.id ≠ i → a = b))
      ts (toggleFirst i ts) := by
  induction ts with
  | nil => exact List.Forall₂.nil
  | cons t ts ih =>
    by_cases h : t.id = i
    · rw [toggleFirst, if_pos h]
      exact List.Forall₂.cons ⟨rfl, rfl, fun hne => absurd h hne⟩
        (List.forall₂_same.2 fun x _ => ⟨rfl, rfl, fun _ => rfl⟩)
    · rw [toggleFirst, if_neg h]
      exact List.Forall₂.cons ⟨rfl, rfl, fun _ => rfl⟩ ih

theorem deleteFirst_sublist (i : Nat) (ts : List Todo) :
    List.Sublist (deleteFirst i ts) ts := by
  induction ts with
  | nil => simp [deleteFirst]
  | cons t ts ih =>
    by_cases h : t.id = i
    · rw [deleteFirst, if_pos h]
      exact List.sublist_cons_self t ts
    · rw [deleteFirst, if_neg h]
      exact ih.cons₂ t

theorem deleteFirst_id_not_mem (i : Nat) (ts : List Todo)
    (hpw : ts.Pairwise (fun a b => a.id ≠ b.id)) :
    ∀ u ∈ deleteFirst i ts, u.id ≠ i := by
  induction ts with
  | nil => intro u hu; simp [deleteFirst] at hu
  | cons t ts ih =>
    rw [List.pairwise_cons] at hpw
    by_cases h : t.id = i
    · rw [deleteFirst, if_pos h]
      intro u hu he
      exact hpw.1 u hu (he ▸ h)
    · rw [deleteFirst, if_neg h]
      intro u hu
      rcases List.mem_cons.1 hu with rfl | hu
      · exact h
      · exact ih hpw.2 u hu

theorem deleteFirst_mem (i : Nat) (ts : List Todo) (u : Todo)
    (hu : u ∈ ts) (hne : u.id ≠ i) : u ∈ deleteFirst i ts := by
  induction ts with
  | nil => simp at hu
  | cons t ts ih =>
    by_cases h : t.id = i
    · rw [deleteFirst, if_pos h]
      rcases List.mem_cons.1 hu with rfl | hu
      · exact absurd h hne
      · exact hu
    · rw [deleteFirst, if_neg h]
      rcases List.mem_cons.1 hu with rfl | hu
      · exact List.mem_cons_self u (deleteFirst i ts)
      · exact List.mem_cons_of_mem t (ih hu)

theorem deleteFirst_length (i : Nat) (ts : List Todo)
    (h : ∃ t ∈ ts, t.id = i) :
    (deleteFirst i ts).length + 1 = ts.length := by
  induction ts with
  | nil => simp at h
  | cons t ts ih =>
    by_cases hh : t.id = i
    · rw [deleteFirst, if_pos hh]
      simp
    · rw [deleteFirst, if_neg hh]
      obtain ⟨w, hw, hwi⟩ := h
      rcases List.mem_cons.1 hw with rfl | hw
      · exact absurd hwi hh
      · simpa using ih ⟨w, hw, hwi⟩

/-! ## The claims -/

/-- C1: every create request builds a todo carrying the supplied optional
title and `completed = false`, appends it to the persisted collection with
the next id, and answers with a redirect to the list view; concretely,
creating "Buy milk" in the empty store and then listing yields exactly one
record with that title and `completed = false`. -/
theorem create_persists_and_redirects (db : DB) (topt : Option String) :
    (create topt db).1 = Response.redirect "/todos" ∧
    (create topt db).2.todos
      = db.todos ++ [{ id := db.nextId, title := topt, completed := false }] ∧
    (get_tasks (create (some "Buy milk") initDB).2).1
      = [{ id := 1, title := some "Buy milk", completed := false }] :=
  ⟨rfl, rfl, rfl⟩

/-- C3: for an id not present in the store, the update handler raises
`AttributeError` (dereferencing the absent lookup result) and the delete
handler raises `UnmappedInstanceError` (deleting the absent lookup
result); neither produces a normal redirect response. -/
theorem missing_id_update_delete_crash (db : DB) (i : Nat)
    (h : ∀ t ∈ db.todos, t.id ≠ i) :
    (update i db).1 = Except.error Err.attributeError ∧
    (delete i db).1 = Except.error Err.unmappedInstanceError := by
  have hf : db.todos.find? (fun t => t.id == i) = none := by
    apply List.find?_eq_none.2
    intro t ht
    simpa using h t ht
  exact ⟨by simp [update, hf], by simp [delete, hf]⟩

theorem missing_id_update_delete_crash_witness :
    (update 5 { todos := [{ id := 1, title := none, completed := false }], nextId := 2 }).1 = Except.error Err.attributeError ∧
    (delete 5 { todos := [{ id := 1, title := none, completed := false }], nextId := 2 }).1 = Except.error Err.unmappedInstanceError :=
  missing_id_update_delete_crash
    { todos := [{ id := 1, title := none, completed := false }], nextId := 2 } 5
    (by decide)

/-- C6: listing over a store holding no todos is a normal (non-crashing)
request that renders the empty collection. -/
theorem get_tasks_empty (db : DB) (h : db.todos = []) :
    (get_tasks db).1 = [] :=
  h

theorem get_tasks_empty_witness : (get_tasks initDB).1 = [] :=
  get_tasks_empty initDB rfl

/-- C9: on every request and in every store state, the root route answers
with the same static greeting body and returns the store exactly as it
was: no todo record is read (the response does not depend on the store)
or written. -/
theorem say_hello_static (db : DB) :
    say_hello db = (Response.ok "Hello, World!", db) :=
  rfl

/-- C10: an update or delete request naming an id not present in the
store crashes before any session mutation is committed, so the persisted
store after the failed request equals the store before it. -/
theorem missing_id_state_unchanged (db : DB) (i : Nat)
    (h : ∀ t ∈ db.todos, t.id ≠ i) :
    (update i db).2 = db ∧ (delete i db).2 = db := by
  have hf : db.todos.find? (fun t => t.id == i) = none := by
    apply List.find?_eq_none.2
    intro t ht
    simpa using h t ht
  exact ⟨by simp [update, hf], by simp [delete, hf]⟩

theorem missing_id_state_unchanged_witness :
    (update 7 { todos := [{ id := 2, title := some "x", completed := true }], nextId := 3 }).2
      = { todos := [{ id := 2, title := some "x", completed := true }], nextId := 3 } ∧
    (delete 7 { todos := [{ id := 2, title := some "x", completed := true }], nextId := 3 }).2
      = { todos := [{ id := 2, title := some "x", completed := true }], nextId := 3 } :=
  missing_id_state_unchanged
    { todos := [{ id := 2, title := some "x", completed := true }], nextId := 3 } 7
    (by decide)

/-- C2: updating an existing todo flips its completed flag to the logical
negation of its current value (the flipped record is what a lookup then
finds), the request answers with a redirect, and applying update twice to
the same todo restores the store — in particular the flag — to exactly its
original value. -/
theorem update_toggles_and_double_toggle_restores (db : DB) (i : Nat) (t : Todo)
    (h : db.todos.find? (fun u => u.id == i) = some t) :
    (update i db).1 = Except.ok (Response.redirect "/todos") ∧
    (update i db).2.todos.find? (fun u => u.id == i)
      = some { t with completed := !t.completed } ∧
    (update i (update i db).2).2 = db := by
  have h1 : update i db
      = (Except.ok (Response.redirect "/todos"),
         { db with todos := toggleFirst i db.todos }) := by
    simp [update, h]
  have h2 : (toggleFirst i db.todos).find? (fun u => u.id == i)
      = some { t with completed := !t.completed } :=
    find?_toggleFirst i db.todos t h
  refine ⟨by rw [h1], by rw [h1]; exact h2, ?_⟩
  rw [h1]
  have h3 : update i { db with todos := toggleFirst i db.todos }
      = (Except.ok (Response.redirect "/todos"),
         { db with todos := toggleFirst i (toggleFirst i db.todos) }) := by
    simp [update, h2]
  rw [h3]
  show { db with todos := toggleFirst i (toggleFirst i db.todos) } = db
  rw [toggleFirst_toggleFirst]

theorem update_toggles_and_double_toggle_restores_witness :
    (update 1 { todos := [{ id := 1, title := none, completed := false }], nextId := 2 }).1 = Except.ok (Response.redirect "/todos") ∧
    (update 1 { todos := [{ id := 1, title := none, completed := false }], nextId := 2 }).2.todos.find? (fun u => u.id == 1)
      = some { id := 1, title := none, completed := true } ∧
    (update 1 (update 1 { todos := [{ id := 1, title := none, completed := false }], nextId := 2 }).2).2
      = { todos := [{ id := 1, title := none, completed := false }], nextId := 2 } :=
  update_toggles_and_double_toggle_restores
    { todos := [{ id := 1, title := none, completed := false }], nextId := 2 } 1
    { id := 1, title := none, completed := false } (by decide)

/-- C4: deleting a todo whose id is present removes exactly that record:
the response is a redirect to the list view, a subsequent listing contains
no record with the deleted id, every record with a different id is still
listed, and exactly one record is gone. -/
theorem delete_removes_exactly (db : DB) (i : Nat) (t : Todo)
    (hpw : db.todos.Pairwise (fun a b => a.id ≠ b.id))
    (ht : t ∈ db.todos) (hid : t.id = i) :
    (delete i db).1 = Except.ok (Response.redirect "/todos") ∧
    (∀ u ∈ (get_tasks (delete i db).2).1, u.id ≠ i) ∧
    (∀ u ∈ db.todos, u.id ≠ i → u ∈ (get_tasks (delete i db).2).1) ∧
    (delete i db).2.todos.length + 1 = db.todos.length := by
  have hf : (db.todos.find? (fun u => u.id == i)).isSome := by
    rw [List.find?_isSome]
    exact ⟨t, ht, by simpa using hid⟩
  obtain ⟨w, hw⟩ := Option.isSome_iff_exists.1 hf
  have h1 : (delete i db).2 = { db with todos := deleteFirst i db.todos } := by
    simp [delete, hw]
  refine ⟨by simp [delete, hw], ?_, ?_, ?_⟩
  · rw [h1]
    exact deleteFirst_id_not_mem i db.todos hpw
  · intro u hu hne
    rw [h1]
    exact deleteFirst_mem i db.todos u hu hne
  · rw [h1]
    exact deleteFirst_length i db.todos ⟨t, ht, hid⟩

theorem delete_removes_exactly_witness :
    (delete 1 { todos := [{ id := 1, title := none, completed := false }, { id := 2, title := some "y", completed := true }], nextId := 3 }).1 = Except.ok (Response.redirect "/todos") ∧
    (∀ u ∈ (get_tasks (delete 1 { todos := [{ id := 1, title := none, completed := false }, { id := 2, title := some "y", completed := true }], nextId := 3 }).2).1, u.id ≠ 1) ∧
    (∀ u ∈ ({ todos := [{ id := 1, title := none, completed := false }, { id := 2, title := some "y", completed := true }], nextId := 3 } : DB).todos, u.id ≠ 1 → u ∈ (get_tasks (delete 1 { todos := [{ id := 1, title := none, completed := false }, { id := 2, title := some "y", completed := true }], nextId := 3 }).2).1) ∧
    (delete 1 { todos := [{ id := 1, title := none, completed := false }, { id := 2, title := some "y", completed := true }], nextId := 3 }).2.todos.length + 1
      = ({ todos := [{ id := 1, title := none, completed := false }, { id := 2, title := some "y", completed := true }], nextId := 3 } : DB).todos.length :=
  delete_removes_exactly
    { todos := [{ id := 1, title := none, completed := false }, { id := 2, title := some "y", completed := true }], nextId := 3 } 1
    { id := 1, title := none, completed := false } (by decide) (by decide) rfl

/-- C5: an update request mutates at most the completed flag: the next id
to assign is unchanged, and the stored records correspond one to one with
the originals, agreeing on id and title everywhere and agreeing entirely
on every record whose id is not the requested one. -/
theorem update_frame (db : DB) (i : Nat) :
    (update i db).2.nextId = db.nextId ∧
    List.Forall₂ (fun a b => a.id = b.id ∧ a.title = b.title ∧ (a.id ≠ i → a = b))
      db.todos (update i db).2.todos := by
  cases hf : db.todos.find? (fun u => u.id == i) with
  | none =>
    refine ⟨by simp [update, hf], ?_⟩
    have h1 : (update i db).2 = db := by simp [update, hf]
    rw [h1]
    exact List.forall₂_same.2 fun x _ => ⟨rfl, rfl, fun _ => rfl⟩
  | some t =>
    have h1 : (update i db).2 = { db with todos := toggleFirst i db.todos } := by
      simp [update, hf]
    exact ⟨by rw [h1], by rw [h1]; exact toggleFirst_forall₂ i db.todos⟩

/-- C7 counterexample: a create request with the `title` form field
missing persists a record whose title is the absent value (NULL), not a
string — listing after such a create yields a record for which no string
title is present, refuting "every persisted todo has a title that is a
string". -/
theorem create_missing_title_counterexample :
    (get_tasks (create none initDB).2).1
      = [{ id := 1, title := none, completed := false }] ∧
    ((get_tasks (create none initDB).2).1.all fun t => t.title.isSome) = false :=
  ⟨rfl, rfl⟩

/-- C7 amended: every persisted todo has an optional title and a defined
boolean completion state: a create stores exactly the supplied form value
— the given string when the field is present, the absent value (not the
empty string) when it is missing — together with `completed = false`. -/
theorem create_title_is_supplied_optional (db : DB) (topt : Option String) :
    (create topt db).2.todos.map (fun t => t.title)
      = db.todos.map (fun t => t.title) ++ [topt] ∧
    (create topt db).2.todos.map (fun t => t.completed)
      = db.todos.map (fun t => t.completed) ++ [false] ∧
    (create none initDB).2.todos.map (fun t => t.title) = [none] :=
  ⟨by simp [create], by simp [create], rfl⟩

/-! ## Invariant machinery for the id-uniqueness claim -/

theorem pairwise_id_iff (ts : List Todo) :
    ts.Pairwise (fun a b => a.id ≠ b.id)
      ↔ (ts.map (fun t => t.id)).Pairwise (fun a b => a ≠ b) :=
  (List.pairwise_map).symm

theorem mem_toggleFirst_id (i : Nat) (ts : List Todo) (u : Todo)
    (hu : u ∈ toggleFirst i ts) : ∃ v ∈ ts, v.id = u.id := by
  have h1 : u.id ∈ (toggleFirst i ts).map (fun t => t.id) :=
    List.mem_map_of_mem _ hu
  rw [toggleFirst_map_id] at h1
  obtain ⟨v, hv, hvi⟩ := List.mem_map.1 h1
  exact ⟨v, hv, hvi⟩

theorem nextId_applyOp (db : DB) (o : Op) :
    db.nextId ≤ (applyOp db o).nextId := by
  cases o with
  | create topt => exact Nat.le_succ _
  | update i =>
    cases hf : db.todos.find? (fun t => t.id == i) <;>
      simp [applyOp, update, hf]
  | delete i =>
    cases hf : db.todos.find? (fun t => t.id == i) <;>
      simp [applyOp, delete, hf]

theorem nextId_run (db : DB) (ops : List Op) :
    db.nextId ≤ (run db ops).nextId := by
  induction ops generalizing db with
  | nil => exact Nat.le_refl _
  | cons o ops ih =>
    calc db.nextId ≤ (applyOp db o).nextId := nextId_applyOp db o
      _ ≤ (run (applyOp db o) ops).nextId := ih (applyOp db o)

theorem inv_applyOp (db : DB) (o : Op) (h : Inv db) : Inv (applyOp db o) := by
  obtain ⟨hlt, hpw⟩ := h
  cases o with
  | create topt =>
    constructor
    · intro u hu
      simp only [applyOp, create, List.mem_append, List.mem_singleton] at hu
      rcases hu with hu | rfl
      · exact Nat.lt_succ_of_lt (hlt u hu)
      · exact Nat.lt_succ_self _
    · show (db.todos ++ [({ id := db.nextId, title := topt, completed := false } : Todo)]).Pairwise (fun a b => a.id ≠ b.id)
      rw [List.pairwise_append]
      refine ⟨hpw, List.pairwise_singleton _ _, ?_⟩
      intro a ha b hb
      rw [List.mem_singleton] at hb
      subst hb
      exact Nat.ne_of_lt (hlt a ha)
  | update i =>
    cases hf : db.todos.find? (fun t => t.id == i) with
    | none =>
      have h1 : applyOp db (Op.update i) = db := by simp [applyOp, update, hf]
      rw [h1]
      exact ⟨hlt, hpw⟩
    | some t =>
      have h1 : applyOp db (Op.update i) = { db with todos := toggleFirst i db.todos } := by
        simp [applyOp, update, hf]
      rw [h1]
      constructor
      · intro u hu
        obtain ⟨v, hv, hvi⟩ := mem_toggleFirst_id i db.todos u hu
        exact hvi ▸ hlt v hv
      · show (toggleFirst i db.todos).Pairwise _
        rw [pairwise_id_iff, toggleFirst_map_id, ← pairwise_id_iff]
        exact hpw
  | delete i =>
    cases hf : db.todos.find? (fun t => t.id == i) with
    | none =>
      have h1 : applyOp db (Op.delete i) = db := by simp [applyOp, delete, hf]
      rw [h1]
      exact ⟨hlt, hpw⟩
    | some t =>
      have h1 : applyOp db (Op.delete i) = { db with todos := deleteFirst i db.todos } := by
        simp [applyOp, delete, hf]
      rw [h1]
      constructor
      · intro u hu
        exact hlt u ((deleteFirst_sublist i db.todos).subset hu)
      · exact hpw.sublist (deleteFirst_sublist i db.todos)

theorem inv_run (db : DB) (ops : List Op) (h : Inv db) : Inv (run db ops) := by
  induction ops generalizing db with
  | nil => exact h
  | cons o ops ih => exact ih (applyOp db o) (inv_applyOp db o h)

theorem inv_init : Inv initDB :=
  ⟨fun t ht => absurd ht (List.not_mem_nil t), List.Pairwise.nil⟩

theorem reachable_inv (db : DB) (h : Reachable db) : Inv db := by
  obtain ⟨ops, rfl⟩ := h
  exact inv_run initDB ops inv_init

/-- C8: in every reachable store the assigned ids are pairwise distinct,
and an id is never reused: for any todo present in a reachable store and
any further request sequence (which may delete that todo), the record a
later create appends receives an id different from that todo's id. -/
theorem ids_unique_and_never_reused (db : DB) (h : Reachable db) :
    db.todos.Pairwise (fun a b => a.id ≠ b.id) ∧
    ∀ t ∈ db.todos, ∀ ops : List Op, ∀ topt : Option String, ∀ u : Todo,
      ((create topt (run db ops)).2.todos).getLast? = some u → u.id ≠ t.id := by
  obtain ⟨hlt, hpw⟩ := reachable_inv db h
  refine ⟨hpw, ?_⟩
  intro t ht ops topt u hu
  have h1 : ((create topt (run db ops)).2.todos).getLast?
      = some { id := (run db ops).nextId, title := topt, completed := false } := by
    simp [create]
  rw [h1] at hu
  cases hu
  have h2 : t.id < db.nextId := hlt t ht
  have h3 : db.nextId ≤ (run db ops).nextId := nextId_run db ops
  show (run db ops).nextId ≠ t.id
  omega

theorem ids_unique_and_never_reused_witness :
    (run initDB [Op.create none]).todos.Pairwise (fun a b => a.id ≠ b.id) ∧
    ∀ t ∈ (run initDB [Op.create none]).todos, ∀ ops : List Op,
      ∀ topt : Option String, ∀ u : Todo,
      ((create topt (run (run initDB [Op.create none]) ops)).2.todos).getLast? = some u
        → u.id ≠ t.id :=
  ids_unique_and_never_reused (run initDB [Op.create none]) ⟨[Op.create none], rfl⟩

end TodoApp
